import Mathlib

/-!
Shallow embedding of `src/controllers/mariadbdatabase_controller.go`
(the MariaDBDatabase reconciler of the mariadb-operator).

The embedding models the external object store explicitly: a `World`
holds the claim (`MariaDBDatabase`) at the request's key, the store's
answer for the Galera and MariaDB objects named by the claim's
`dbName` label, the state of the provisioning job, and two flags saying
whether `r.Update` and the deferred `helper.PatchInstance` succeed.
`Reconcile` is a pure function `World → ReconcileOut × World`,
translated statement by statement from the Go source; ghost fields in
`BodyOut` record which control-flow points were reached (readiness
check, job execution, job dispatch, finalizer additions) so that the
temporal claims can be stated about a single invocation.
-/

namespace MariaDBOp

/-- Result of a `Get` against the external object store for one named
object: the object, a does-not-exist condition, or any other store
error (permission, transient I/O). -/
inductive GetResult (α : Type) where
  | found (obj : α)
  | notFound
  | storeError
  deriving DecidableEq

/-- Status record of the claim: `Status.Hash` (a map from action name to
last-applied input hash, embedded as an association list) and
`Status.Completed`. -/
structure MariaDBDatabaseStatus where
  hash : List (String × String)
  completed : Bool
  deriving DecidableEq

/-- The claim (`MariaDBDatabase`): name, the `dbName` label naming the
backing store, the deletion marker (`DeletionTimestamp` non-zero), the
finalizer list and the status record. -/
structure MariaDBDatabase where
  name : String
  dbNameLabel : String
  deletionMarked : Bool
  finalizers : List String
  status : MariaDBDatabaseStatus
  deriving DecidableEq

/-- The clustered backing-store variant (`Galera`): spec fields `Secret`
and `ContainerImage`, status field `Bootstrapped`, and finalizers. -/
structure Galera where
  name : String
  secret : String
  containerImage : String
  bootstrapped : Bool
  finalizers : List String
  deriving DecidableEq

/-- The standalone backing-store variant (`MariaDB`): spec fields
`Secret` and `ContainerImage`, status field `DbInitHash`, and
finalizers. -/
structure MariaDB where
  name : String
  secret : String
  containerImage : String
  dbInitHash : String
  finalizers : List String
  deriving DecidableEq

/-- Embedding of `controllerutil.AddFinalizer`: append the token if
absent; the Bool is the `changed` return value. -/
def addFinalizerList (fins : List String) (tok : String) : Bool × List String :=
  if fins.contains tok then (false, fins) else (true, fins ++ [tok])

/-- Embedding of `controllerutil.RemoveFinalizer`: drop every occurrence
of the token; the Bool is the `changed` return value. -/
def removeFinalizerList (fins : List String) (tok : String) : Bool × List String :=
  if fins.contains tok then (true, fins.filter (fun f => !(f == tok))) else (false, fins)

/-- Modelled from the spec: `helper.GetFinalizer()` (lib-common, not in
src/) returns a fixed finalizer string identifying this reconciler; its
concrete value is opaque, only its use as a token matters. -/
def ownFinalizer : String := "mariadbdatabase"

/-- The per-claim token put on the backing store:
`fmt.Sprintf("%s-%s", helper.GetFinalizer(), instance.Name)`. -/
def dbFinalizer (claimName : String) : String := ownFinalizer ++ "-" ++ claimName

/-- Modelled from the spec: `databasev1beta1.DbCreateHash` (api package,
not in src/), the key of the `"DbCreate"` action in the status hash
map; its concrete value is an opaque token. -/
def dbCreateHashKey : String := "dbcreate"

/-- Lookup in the status hash map; a missing key reads as `""`, as a Go
map read `instance.Status.Hash[k]` does on a nil or missing entry. -/
def hashLookup (m : List (String × String)) (k : String) : String :=
  match m.find? (fun kv => kv.1 == k) with
  | some kv => kv.2
  | none => ""

/-- Write `m[k] = v` in the status hash map. -/
def hashSet (m : List (String × String)) (k v : String) : List (String × String) :=
  if (m.find? (fun kv => kv.1 == k)).isSome then
    m.map (fun kv => if kv.1 == k then (k, v) else kv)
  else m ++ [(k, v)]

/-- The `client.Object` returned first by `getDatabaseObject`: it is one
of the two fetched variants. -/
inductive DbObj where
  | galera (g : Galera)
  | mariadb (m : MariaDB)
  deriving DecidableEq

/-- Finalizer list of the underlying object. -/
def DbObj.finalizersOf : DbObj → List String
  | .galera g => g.finalizers
  | .mariadb m => m.finalizers

/-- `controllerutil.AddFinalizer` on the `client.Object`. -/
def DbObj.addFinalizerTok : DbObj → String → Bool × DbObj
  | .galera g, tok =>
    let r := addFinalizerList g.finalizers tok
    (r.1, .galera { g with finalizers := r.2 })
  | .mariadb m, tok =>
    let r := addFinalizerList m.finalizers tok
    (r.1, .mariadb { m with finalizers := r.2 })

/-- `controllerutil.RemoveFinalizer` on the `client.Object`. -/
def DbObj.removeFinalizerTok : DbObj → String → Bool × DbObj
  | .galera g, tok =>
    let r := removeFinalizerList g.finalizers tok
    (r.1, .galera { g with finalizers := r.2 })
  | .mariadb m, tok =>
    let r := removeFinalizerList m.finalizers tok
    (r.1, .mariadb { m with finalizers := r.2 })

/-- Error classification of `getDatabaseObject`'s error return:
`notFound` means `k8s_errors.IsNotFound(err)` holds, `other` is any
other store error. -/
inductive GetErr where
  | notFound
  | other
  deriving DecidableEq

/-- The four-tuple returned by `getDatabaseObject`
`(client.Object, *Galera, *MariaDB, error)`, plus the ghost flag
`lookedUpStandalone` recording whether the MariaDB (standalone) lookup
was attempted at all. -/
structure GetDbResult where
  obj : Option DbObj
  dbGalera : Option Galera
  dbMariadb : Option MariaDB
  err : Option GetErr
  lookedUpStandalone : Bool
  deriving DecidableEq

/-- Embedding of `getDatabaseObject` (lines 226-261): fetch the Galera
object named by the claim's `dbName` label; a non-NotFound error is
returned as-is; on NotFound, fetch the MariaDB object of the same name
and return it or its error; on success return the Galera object. -/
def getDatabaseObject (galeraGet : GetResult Galera) (mariadbGet : GetResult MariaDB) :
    GetDbResult :=
  match galeraGet with
  | .storeError => ⟨none, none, none, some .other, false⟩
  | .found g => ⟨some (.galera g), some g, none, none, false⟩
  | .notFound =>
    match mariadbGet with
    | .storeError => ⟨none, none, none, some .other, true⟩
    | .notFound => ⟨none, none, none, some .notFound, true⟩
    | .found m => ⟨some (.mariadb m), none, some m, none, true⟩

/-- Phase of the one-shot provisioning job instance in the store. -/
inductive JobPhase where
  | running
  | succeeded
  | failed
  deriving DecidableEq

/-- Outcome of one `DoJob` call, as the Orchestrator observes it:
`requeue` is a non-empty `ctrl.Result` (job still in flight), `failed`
is a returned error, `done changed newHash` is an empty result and nil
error with `HasChanged() = changed` and `GetHash() = newHash`. -/
inductive JobOutcome where
  | requeue (seconds : Nat)
  | failed
  | done (changed : Bool) (newHash : String)
  deriving DecidableEq

/-- Input payload of the provisioning job, built by
`mariadb.DbDatabaseJob(instance, dbName, dbSecret, dbContainerImage)`
(pkg package, not in src/; modelled as the tuple of its defining
parameters, which is what the job hash is computed over). -/
structure JobPayload where
  claimName : String
  dbName : String
  secret : String
  containerImage : String
  deriving DecidableEq

/-- Modelled from the spec: the content hash of the job payload.  An
injective encoding of the defining parameters; always non-empty, so it
never collides with the `""` read of a missing status-map entry. -/
def payloadHash (p : JobPayload) : String :=
  "h;" ++ p.claimName ++ ";" ++ p.dbName ++ ";" ++ p.secret ++ ";" ++ p.containerImage

/-- Result of one `DoJob` call: the outcome, the job-store state after
the call, and the ghost flag `dispatched` recording whether this call
created a new job instance (a provisioning-action dispatch). -/
structure DoJobResult where
  outcome : JobOutcome
  jobAfter : Option JobPhase
  dispatched : Bool
  deriving DecidableEq

/-- Modelled from the spec: the Job Executor `job.NewJob(...).DoJob`
(lib-common, not in src/), per section 4.3.  If the computed payload
hash equals the last known hash the action is already satisfied:
`done, changed=false`, nothing dispatched (the hash is non-empty, so
equality also certifies a prior successful run).  Otherwise an instance
is ensured: created when none exists (a dispatch), left alone when one
is running; an in-flight instance yields `requeue staleAfter`, a
terminally failed one yields `failed`, a succeeded one yields
`done, changed=true` with the new hash. -/
def doJob (p : JobPayload) (lastKnownHash : String) (staleAfter : Nat)
    (jobState : Option JobPhase) : DoJobResult :=
  let h := payloadHash p
  if h == lastKnownHash then ⟨.done false h, jobState, false⟩
  else
    match jobState with
    | none => ⟨.requeue staleAfter, some .running, true⟩
    | some .running => ⟨.requeue staleAfter, some .running, false⟩
    | some .succeeded => ⟨.done true h, some .succeeded, false⟩
    | some .failed => ⟨.failed, some .failed, false⟩

/-- The externally visible state one `Reconcile` invocation runs
against: the claim at the request's key, the store's answer for the
Galera and MariaDB objects of the claim's `dbName` label, the
provisioning-job instance, and whether `r.Update` / the deferred
`helper.PatchInstance` calls succeed in this invocation. -/
structure World where
  claim : Option MariaDBDatabase
  galeraStore : GetResult Galera
  mariadbStore : GetResult MariaDB
  jobState : Option JobPhase
  updateOk : Bool
  patchOk : Bool
  deriving DecidableEq

/-- The reconcile errors, classified by producing call site. -/
inductive RErr where
  | storeErr
  | updateErr
  | jobErr
  | patchErr
  deriving DecidableEq

/-- The `ctrl.Result` value; the controller only ever sets
`RequeueAfter`, so the result is its delay in seconds, `0` encoding the
empty result `ctrl.Result{}`. -/
structure CtrlResult where
  requeueAfterSeconds : Nat
  deriving DecidableEq

/-- The empty result `ctrl.Result{}`. -/
def emptyResult : CtrlResult := ⟨0⟩

/-- `ctrl.Result{RequeueAfter: 10 * time.Second}`. -/
def requeue10 : CtrlResult := ⟨10⟩

/-- Everything the body of `Reconcile` (lines 107-215, after the fetch
and the installation of the deferred status patch) produces: the
result/error pair, the in-memory instance at exit (what the deferred
patch will persist), the store state after the body's own `r.Update`
and job-creation calls, and ghost flags recording reached control
points: `dispatched` (a job instance was created), `ranJob` (`DoJob`
was invoked), `checkedReadiness` (the per-variant readiness block at
line 160 was reached), `readinessFallThrough` (that block was entered
with both variant pointers nil), `addedOwnFinalizer` (the claim's own
finalizer was newly added, triggering the early return at line 150),
and `jobOutcome` (the executor outcome, when `DoJob` ran). -/
structure BodyOut where
  res : CtrlResult
  err : Option RErr
  instAfter : MariaDBDatabase
  galeraAfter : GetResult Galera
  mariadbAfter : GetResult MariaDB
  jobAfter : Option JobPhase
  dispatched : Bool
  ranJob : Bool
  checkedReadiness : Bool
  readinessFallThrough : Bool
  addedOwnFinalizer : Bool
  jobOutcome : Option JobOutcome
  deriving DecidableEq

/-- Default body output: empty successful result, nothing mutated, no
ghost flag set. Each exit path of the body overrides what it changed. -/
def baseOut (inst : MariaDBDatabase) (w : World) : BodyOut :=
  { res := emptyResult, err := none, instAfter := inst,
    galeraAfter := w.galeraStore, mariadbAfter := w.mariadbStore,
    jobAfter := w.jobState, dispatched := false, ranJob := false,
    checkedReadiness := false, readinessFallThrough := false,
    addedOwnFinalizer := false, jobOutcome := none }

/-- Store state after `r.Update(ctx, db)` succeeds: the variant that
`db` aliases is written back. -/
def storesAfterUpdate (w : World) (db : DbObj) : GetResult Galera × GetResult MariaDB :=
  match db with
  | .galera g => (.found g, w.mariadbStore)
  | .mariadb m => (w.galeraStore, .found m)

/-- Lines 180-215: build the job payload from the resolved name, secret
and image, read the last `"DbCreate"` hash from the status map, invoke
the Job Executor with a 5-second stale delay, and propagate its
outcome: a non-empty result is returned with nil error, an error is
propagated, and on done the new hash is recorded when changed and
`Status.Completed` is set. -/
def runJobStep (inst : MariaDBDatabase) (stores : GetResult Galera × GetResult MariaDB)
    (w : World) (dbName dbSecret dbContainerImage : String) : BodyOut :=
  let payload : JobPayload := ⟨inst.name, dbName, dbSecret, dbContainerImage⟩
  let lastHash := hashLookup inst.status.hash dbCreateHashKey
  let jr := doJob payload lastHash 5 w.jobState
  let out0 := { baseOut inst w with
    galeraAfter := stores.1, mariadbAfter := stores.2,
    jobAfter := jr.jobAfter, dispatched := jr.dispatched, ranJob := true,
    checkedReadiness := true, jobOutcome := some jr.outcome }
  match jr.outcome with
  | .requeue d => { out0 with res := ⟨d⟩ }
  | .failed => { out0 with err := some .jobErr }
  | .done changed newHash =>
    let st1 := if changed then
        { inst.status with hash := hashSet inst.status.hash dbCreateHashKey newHash }
      else inst.status
    { out0 with instAfter := { inst with status := { st1 with completed := true } } }

/-- The body of `Reconcile` (lines 107-215), for a fetched instance.
Deletion branch (112-127): when the backing store resolved, remove the
per-claim token from it and persist via `r.Update` (propagating an
update error before touching the claim); then remove the claim's own
finalizer and return the empty result.  Active branch: a resolution
NotFound becomes a 10s requeue and any other resolution error is
propagated (130-137); then the per-claim token is added to the backing
store and persisted (141-146), the claim's own finalizer is added with
an immediate empty-result return when newly added (148-151), the
per-variant readiness check runs (160-178), and the job step follows.
The two `none` arms for `gdb.obj` under `gdb.err = none` are
unreachable (`getDatabaseObject_obj_of_err_none` below); on them Go
would dereference nil, modelled as a bare store error. -/
def reconcileBody (inst : MariaDBDatabase) (w : World) : BodyOut :=
  let gdb := getDatabaseObject w.galeraStore w.mariadbStore
  if inst.deletionMarked then
    match gdb.err with
    | none =>
      match gdb.obj with
      | some db =>
        let rem := db.removeFinalizerTok (dbFinalizer inst.name)
        if rem.1 then
          if w.updateOk then
            let stores := storesAfterUpdate w rem.2
            let remOwn := removeFinalizerList inst.finalizers ownFinalizer
            { baseOut inst w with
                instAfter := { inst with finalizers := remOwn.2 },
                galeraAfter := stores.1, mariadbAfter := stores.2 }
          else
            { baseOut inst w with err := some .updateErr }
        else
          let remOwn := removeFinalizerList inst.finalizers ownFinalizer
          { baseOut inst w with instAfter := { inst with finalizers := remOwn.2 } }
      | none => { baseOut inst w with err := some .storeErr }
    | some _ =>
      let remOwn := removeFinalizerList inst.finalizers ownFinalizer
      { baseOut inst w with instAfter := { inst with finalizers := remOwn.2 } }
  else
    match gdb.err with
    | some .notFound => { baseOut inst w with res := requeue10 }
    | some .other => { baseOut inst w with err := some .storeErr }
    | none =>
      match gdb.obj with
      | none => { baseOut inst w with err := some .storeErr }
      | some db =>
        let add := db.addFinalizerTok (dbFinalizer inst.name)
        if add.1 ∧ !w.updateOk then
          { baseOut inst w with err := some .updateErr }
        else
          let stores := if add.1 then storesAfterUpdate w add.2
            else (w.galeraStore, w.mariadbStore)
          let addOwn := addFinalizerList inst.finalizers ownFinalizer
          let inst1 := { inst with finalizers := addOwn.2 }
          if addOwn.1 then
            { baseOut inst1 w with
                galeraAfter := stores.1, mariadbAfter := stores.2,
                addedOwnFinalizer := true }
          else
            match gdb.dbGalera with
            | some g =>
              if !g.bootstrapped then
                { baseOut inst1 w with
                    res := requeue10,
                    galeraAfter := stores.1, mariadbAfter := stores.2,
                    checkedReadiness := true }
              else
                runJobStep inst1 stores w g.name g.secret g.containerImage
            | none =>
              match gdb.dbMariadb with
              | some m =>
                if m.dbInitHash == "" then
                  { baseOut inst1 w with
                      res := requeue10,
                      galeraAfter := stores.1, mariadbAfter := stores.2,
                      checkedReadiness := true }
                else
                  runJobStep inst1 stores w m.name m.secret m.containerImage
              | none =>
                { runJobStep inst1 stores w "" "" "" with readinessFallThrough := true }

/-- What one `Reconcile` invocation returns, plus ghost data: the body
output (absent when the claim fetch returned NotFound) and a count of
how many times the deferred status patch ran. -/
structure ReconcileOut where
  res : CtrlResult
  err : Option RErr
  body : Option BodyOut
  patchCount : Nat
  deriving DecidableEq

/-- An invocation's output together with the world it leaves behind. -/
structure ReconcileResult where
  out : ReconcileOut
  world : World
  deriving DecidableEq

/-- Embedding of `Reconcile` (lines 75-216).  A NotFound on the claim
fetch terminates silently (`client.IgnoreNotFound`); otherwise the body
runs and the deferred `helper.PatchInstance` (lines 99-105) executes
exactly once on exit: on success it persists the in-memory instance
(finalizers and status) and leaves the body's error alone; on failure
it leaves the stored claim unchanged and overwrites the returned error
with the patch error, keeping the result value.  `helper.NewHelper` is
modelled as infallible. -/
def Reconcile (w : World) : ReconcileResult :=
  match w.claim with
  | none => ⟨⟨emptyResult, none, none, 0⟩, w⟩
  | some inst =>
    let b := reconcileBody inst w
    let w1 : World := { w with galeraStore := b.galeraAfter,
                               mariadbStore := b.mariadbAfter,
                               jobState := b.jobAfter }
    if w.patchOk then
      ⟨⟨b.res, b.err, some b, 1⟩, { w1 with claim := some b.instAfter }⟩
    else
      ⟨⟨b.res, some .patchErr, some b, 1⟩, w1⟩

/-- Ghost accessor: did this invocation dispatch (create) a
provisioning-job instance? -/
def ReconcileOut.odispatched (o : ReconcileOut) : Bool :=
  match o.body with
  | some b => b.dispatched
  | none => false

/-- Ghost accessor: did this invocation newly add the claim's own
finalizer (the early-return of line 150)? -/
def ReconcileOut.oaddedOwnFinalizer (o : ReconcileOut) : Bool :=
  match o.body with
  | some b => b.addedOwnFinalizer
  | none => false

/-- Sample claim with no finalizers and a fresh status. -/
def sampleClaim : MariaDBDatabase :=
  { name := "db1", dbNameLabel := "g1", deletionMarked := false,
    finalizers := [], status := { hash := [], completed := false } }

/-- Sample claim that already carries the reconciler's own finalizer. -/
def sampleClaimFin : MariaDBDatabase :=
  { sampleClaim with finalizers := [ownFinalizer] }

/-- Sample claim marked for deletion, own finalizer present. -/
def sampleClaimDel : MariaDBDatabase :=
  { sampleClaimFin with deletionMarked := true }

/-- Sample Galera object, not bootstrapped, no finalizers. -/
def sampleGalera : Galera :=
  { name := "g1", secret := "sec", containerImage := "img",
    bootstrapped := false, finalizers := [] }

/-- Sample Galera object carrying the claim's token, not bootstrapped. -/
def sampleGaleraTok : Galera :=
  { sampleGalera with finalizers := [dbFinalizer "db1"] }

/-- Sample Galera object carrying the claim's token, bootstrapped. -/
def sampleGaleraReady : Galera :=
  { sampleGaleraTok with bootstrapped := true }

/-- Sample MariaDB object, not initialized. -/
def sampleMariaDB : MariaDB :=
  { name := "g1", secret := "sec", containerImage := "img",
    dbInitHash := "", finalizers := [] }

/-- World with a fresh active claim and a resolvable, unready Galera. -/
def worldFresh : World :=
  { claim := some sampleClaim, galeraStore := .found sampleGalera,
    mariadbStore := .notFound, jobState := none, updateOk := true, patchOk := true }

/-- World with finalizers in place and an unready Galera. -/
def worldUnready : World :=
  { worldFresh with claim := some sampleClaimFin, galeraStore := .found sampleGaleraTok }

/-- World with finalizers in place, a ready Galera and a succeeded job. -/
def worldJobDone : World :=
  { worldFresh with
      claim := some sampleClaimFin,
      galeraStore := .found sampleGaleraReady, jobState := some .succeeded }

/-- World with a deletion-marked claim and a resolvable Galera. -/
def worldDeleting : World :=
  { worldFresh with claim := some sampleClaimDel, galeraStore := .found sampleGaleraTok }

/-- World whose claim references a name under which nothing exists. -/
def worldNoDb : World :=
  { worldFresh with galeraStore := .notFound, mariadbStore := .notFound }

/-- World in which the deferred status patch fails. -/
def worldPatchFail : World :=
  { worldFresh with patchOk := false }

/-- World with a fresh claim (no finalizers yet) and a ready Galera. -/
def worldReadyFresh : World :=
  { worldFresh with galeraStore := .found sampleGaleraReady }

/-! Helper lemmas shared by the claim theorems. -/

theorem runJobStep_no_fallThrough (inst : MariaDBDatabase)
    (stores : GetResult Galera × GetResult MariaDB) (w : World) (n s c : String) :
    (runJobStep inst stores w n s c).readinessFallThrough = false := by
  simp only [runJobStep]
  split <;> simp [baseOut]

theorem reconcileBody_no_fallThrough (inst : MariaDBDatabase) (w : World) :
    (reconcileBody inst w).readinessFallThrough = false := by
  unfold reconcileBody
  cases hg : w.galeraStore <;> cases hm : w.mariadbStore <;>
    simp only [getDatabaseObject] <;>
    split_ifs <;>
    simp [baseOut, runJobStep_no_fallThrough]

theorem hashLookup_hashSet (m : List (String × String)) (k v : String) :
    hashLookup (hashSet m k v) k = v := by
  induction m with
  | nil => simp [hashSet, hashLookup]
  | cons hd tl ih =>
    by_cases hhd : hd.1 = k
    · simp [hashSet, hashLookup, hhd, List.find?_cons]
    · by_cases htl : (tl.find? (fun kv => kv.1 == k)).isSome
      · simp [hashSet, hashLookup, hhd, htl] at ih ⊢
        simpa [hashLookup, hashSet, htl] using ih
      · simp [hashSet, hashLookup, hhd, htl] at ih ⊢
        simpa [hashLookup, hashSet, htl] using ih

theorem runJobStep_spec (inst : MariaDBDatabase)
    (stores : GetResult Galera × GetResult MariaDB) (w : World) (n s c : String) :
    (∀ hsh, (runJobStep inst stores w n s c).jobOutcome = some (.done true hsh) →
      (runJobStep inst stores w n s c).instAfter.status =
        ⟨hashSet inst.status.hash dbCreateHashKey hsh, true⟩ ∧
      (runJobStep inst stores w n s c).res = emptyResult ∧
      (runJobStep inst stores w n s c).err = none) ∧
    (∀ hsh, (runJobStep inst stores w n s c).jobOutcome = some (.done false hsh) →
      (runJobStep inst stores w n s c).instAfter.status = ⟨inst.status.hash, true⟩ ∧
      (runJobStep inst stores w n s c).res = emptyResult ∧
      (runJobStep inst stores w n s c).err = none) ∧
    (∀ d, (runJobStep inst stores w n s c).jobOutcome = some (.requeue d) →
      (runJobStep inst stores w n s c).instAfter = inst ∧
      (runJobStep inst stores w n s c).res = ⟨d⟩ ∧
      (runJobStep inst stores w n s c).err = none) ∧
    ((runJobStep inst stores w n s c).jobOutcome = some .failed →
      (runJobStep inst stores w n s c).instAfter = inst ∧
      (runJobStep inst stores w n s c).res = emptyResult ∧
      (runJobStep inst stores w n s c).err = some .jobErr) := by
  rcases hjr : doJob ⟨inst.name, n, s, c⟩ (hashLookup inst.status.hash dbCreateHashKey)
      5 w.jobState with ⟨jo, ja, disp⟩
  simp only [runJobStep, hjr]
  cases jo with
  | requeue d => simp [baseOut]
  | failed => simp [baseOut]
  | done ch nh => cases ch <;> simp [baseOut]

theorem reconcileBody_shape (inst : MariaDBDatabase) (w : World) :
    ((reconcileBody inst w).jobOutcome = none ∧
     (reconcileBody inst w).instAfter.status = inst.status ∧
     (reconcileBody inst w).ranJob = false ∧
     (reconcileBody inst w).dispatched = false) ∨
    (∃ inst1 stores n s c, inst1.status = inst.status ∧
      reconcileBody inst w = runJobStep inst1 stores w n s c) := by
  unfold reconcileBody
  by_cases hdel : inst.deletionMarked <;>
    cases hg : w.galeraStore <;> cases hm : w.mariadbStore <;>
      simp only [getDatabaseObject, hdel, if_true, if_false, Bool.false_eq_true] <;>
      (try split_ifs) <;>
      first
        | (left; simp [baseOut]; done)
        | (right; refine ⟨_, _, _, _, _, ?_, rfl⟩; rfl)

theorem reconcileBody_no_dispatch_without_own (inst : MariaDBDatabase) (w : World)
    (hfin : ownFinalizer ∉ inst.finalizers) :
    (reconcileBody inst w).dispatched = false := by
  unfold reconcileBody
  by_cases hdel : inst.deletionMarked <;>
    cases hg : w.galeraStore <;> cases hm : w.mariadbStore <;>
      simp only [getDatabaseObject, hdel, if_true, if_false, Bool.false_eq_true] <;>
      (try split_ifs) <;>
      simp_all [baseOut, addFinalizerList, DbObj.addFinalizerTok, removeFinalizerList,
        DbObj.removeFinalizerTok, storesAfterUpdate]

/-- C9: whenever getDatabaseObject returns a nil error, exactly one of
its Galera and MariaDB return values is non-nil, and its first return
value is that same non-nil variant; consequently the per-variant
readiness block in Reconcile is never entered with both variant
pointers nil. -/
theorem getDatabaseObject_exactly_one_variant :
    (∀ (gs : GetResult Galera) (ms : GetResult MariaDB),
      (getDatabaseObject gs ms).err = none →
      (∃ g, (getDatabaseObject gs ms).dbGalera = some g ∧
            (getDatabaseObject gs ms).dbMariadb = none ∧
            (getDatabaseObject gs ms).obj = some (.galera g)) ∨
      (∃ m, (getDatabaseObject gs ms).dbGalera = none ∧
            (getDatabaseObject gs ms).dbMariadb = some m ∧
            (getDatabaseObject gs ms).obj = some (.mariadb m))) ∧
    (∀ (w : World) (b : BodyOut), (Reconcile w).out.body = some b →
      b.readinessFallThrough = false) := by
  constructor
  · intro gs ms herr
    cases gs <;> cases ms <;> simp_all [getDatabaseObject]
  · intro w b hb
    unfold Reconcile at hb
    cases hc : w.claim with
    | none => rw [hc] at hb; simp at hb
    | some inst =>
      rw [hc] at hb
      by_cases hp : w.patchOk <;>
        simp only [hp, if_true, if_false, Bool.false_eq_true] at hb <;>
        simp only [Option.some.injEq] at hb <;>
        rw [← hb] <;>
        exact reconcileBody_no_fallThrough inst w

theorem getDatabaseObject_exactly_one_variant_witness :
    (getDatabaseObject worldFresh.galeraStore worldFresh.mariadbStore).err = none ∧
    ((∃ g, (getDatabaseObject worldFresh.galeraStore worldFresh.mariadbStore).dbGalera = some g ∧
           (getDatabaseObject worldFresh.galeraStore worldFresh.mariadbStore).dbMariadb = none ∧
           (getDatabaseObject worldFresh.galeraStore worldFresh.mariadbStore).obj = some (.galera g)) ∨
     (∃ m, (getDatabaseObject worldFresh.galeraStore worldFresh.mariadbStore).dbGalera = none ∧
           (getDatabaseObject worldFresh.galeraStore worldFresh.mariadbStore).dbMariadb = some m ∧
           (getDatabaseObject worldFresh.galeraStore worldFresh.mariadbStore).obj = some (.mariadb m))) ∧
    ((Reconcile worldFresh).out.body = some (reconcileBody sampleClaim worldFresh) ∧
     (reconcileBody sampleClaim worldFresh).readinessFallThrough = false) :=
  ⟨by decide,
   getDatabaseObject_exactly_one_variant.1 worldFresh.galeraStore worldFresh.mariadbStore
     (by decide),
   by decide,
   getDatabaseObject_exactly_one_variant.2 worldFresh (reconcileBody sampleClaim worldFresh)
     (by decide)⟩

/-- C5: dependency resolution attempts the Clustered (Galera) lookup
first and, on success, returns the Clustered variant immediately,
whatever the readiness flag and whatever a same-named Standalone
lookup would return; the Standalone (MariaDB) lookup is attempted
exactly when the Clustered lookup reports does-not-exist. -/
theorem getDatabaseObject_clustered_priority :
    (∀ (g : Galera) (ms : GetResult MariaDB),
      getDatabaseObject (.found g) ms = ⟨some (.galera g), some g, none, none, false⟩) ∧
    (∀ (gs : GetResult Galera) (ms : GetResult MariaDB),
      ((getDatabaseObject gs ms).lookedUpStandalone = true ↔ gs = .notFound)) := by
  constructor
  · intro g ms; rfl
  · intro gs ms; cases gs <;> cases ms <;> simp [getDatabaseObject]

theorem getDatabaseObject_clustered_priority_witness :
    getDatabaseObject (.found sampleGalera) (.found sampleMariaDB) =
      ⟨some (.galera sampleGalera), some sampleGalera, none, none, false⟩ ∧
    ((getDatabaseObject (.notFound : GetResult Galera)
        (.found sampleMariaDB)).lookedUpStandalone = true ↔
      (.notFound : GetResult Galera) = .notFound) :=
  ⟨getDatabaseObject_clustered_priority.1 sampleGalera (.found sampleMariaDB),
   getDatabaseObject_clustered_priority.2 .notFound (.found sampleMariaDB)⟩

/-- C4: for every invocation that gets past fetching the claim, the
deferred status patch runs exactly once per invocation and on every
exit path (error and requeue paths included); it is the last action of
the invocation by construction of the defer, persisting the body's
final in-memory instance (full status record and finalizers) when it
succeeds, and leaving the stored claim untouched when it fails. -/
theorem reconcile_patches_exactly_once :
    ∀ (w : World) (inst : MariaDBDatabase), w.claim = some inst →
      (Reconcile w).out.patchCount = 1 ∧
      (Reconcile w).out.body = some (reconcileBody inst w) ∧
      (w.patchOk = true →
        (Reconcile w).world.claim = some (reconcileBody inst w).instAfter) ∧
      (w.patchOk = false → (Reconcile w).world.claim = w.claim) := by
  intro w inst h
  by_cases hp : w.patchOk <;> simp [Reconcile, h, hp]

theorem reconcile_patches_exactly_once_witness :
    worldFresh.claim = some sampleClaim ∧
    ((Reconcile worldFresh).out.patchCount = 1 ∧
     (Reconcile worldFresh).out.body = some (reconcileBody sampleClaim worldFresh) ∧
     (worldFresh.patchOk = true →
       (Reconcile worldFresh).world.claim = some (reconcileBody sampleClaim worldFresh).instAfter) ∧
     (worldFresh.patchOk = false → (Reconcile worldFresh).world.claim = worldFresh.claim)) :=
  ⟨by decide, reconcile_patches_exactly_once worldFresh sampleClaim (by decide)⟩

/-- C10: when the deferred final status patch fails, the error returned
to the caller is the patch error, replacing and discarding any error an
earlier step of the same invocation produced, while the result value
computed by the body is returned unchanged. -/
theorem patch_failure_replaces_error :
    ∀ (w : World) (inst : MariaDBDatabase), w.claim = some inst → w.patchOk = false →
      (Reconcile w).out.err = some .patchErr ∧
      (Reconcile w).out.res = (reconcileBody inst w).res := by
  intro w inst h hp
  simp [Reconcile, h, hp]

theorem patch_failure_replaces_error_witness :
    worldPatchFail.claim = some sampleClaim ∧ worldPatchFail.patchOk = false ∧
    ((Reconcile worldPatchFail).out.err = some .patchErr ∧
     (Reconcile worldPatchFail).out.res = (reconcileBody sampleClaim worldPatchFail).res) :=
  ⟨by decide, by decide,
   patch_failure_replaces_error worldPatchFail sampleClaim (by decide) (by decide)⟩

/-- C6: on the active path, a does-not-exist report from dependency
resolution yields a 10-second requeue with no error and touches no
finalizer on any object (the backing-store entries and the stored claim
are exactly as before); any other resolution error is propagated as the
reconcile error with an empty result, never treated as not-found.  The
deferred status patch is assumed to succeed, as in Scenario A. -/
theorem dependency_notfound_requeues :
    ∀ (w : World) (inst : MariaDBDatabase),
      w.claim = some inst → inst.deletionMarked = false → w.patchOk = true →
      ((getDatabaseObject w.galeraStore w.mariadbStore).err = some .notFound →
        (Reconcile w).out.res = requeue10 ∧ (Reconcile w).out.err = none ∧
        (Reconcile w).world.galeraStore = w.galeraStore ∧
        (Reconcile w).world.mariadbStore = w.mariadbStore ∧
        (Reconcile w).world.claim = some inst) ∧
      ((getDatabaseObject w.galeraStore w.mariadbStore).err = some .other →
        (Reconcile w).out.res = emptyResult ∧ (Reconcile w).out.err = some .storeErr ∧
        (Reconcile w).world.galeraStore = w.galeraStore ∧
        (Reconcile w).world.mariadbStore = w.mariadbStore ∧
        (Reconcile w).world.claim = some inst) := by
  intro w inst h hdel hp
  constructor <;> intro herr <;>
    cases hg : w.galeraStore <;> cases hm : w.mariadbStore <;>
    rw [hg, hm] at herr <;>
    simp only [getDatabaseObject, Option.some.injEq, reduceCtorEq] at herr <;>
    simp [Reconcile, reconcileBody, getDatabaseObject, h, hg, hm, hdel, hp, baseOut]

/-- C1: on the active path with the backing store resolved and the
persistence calls succeeding, when the reconciler's own finalizer is
not yet on the claim, Reconcile attaches the per-claim token to the
backing store (persisted via update), appends the claim's own
finalizer (persisted by the final status patch) and returns
immediately with an empty successful result, without reaching the
readiness check and without running or dispatching any provisioning
action; and in any invocation whatsoever, a provisioning action is
dispatched only if the claim's own finalizer was already present at
entry. -/
theorem finalizer_commit_precedes_provisioning :
    (∀ (w : World) (inst : MariaDBDatabase),
      w.claim = some inst → inst.deletionMarked = false →
      (getDatabaseObject w.galeraStore w.mariadbStore).err = none →
      ownFinalizer ∉ inst.finalizers →
      w.updateOk = true → w.patchOk = true →
      (Reconcile w).out.res = emptyResult ∧ (Reconcile w).out.err = none ∧
      (reconcileBody inst w).addedOwnFinalizer = true ∧
      (reconcileBody inst w).checkedReadiness = false ∧
      (reconcileBody inst w).ranJob = false ∧
      (reconcileBody inst w).dispatched = false ∧
      (reconcileBody inst w).instAfter.finalizers = inst.finalizers ++ [ownFinalizer] ∧
      (Reconcile w).world.claim = some (reconcileBody inst w).instAfter ∧
      (∃ db2, (getDatabaseObject (Reconcile w).world.galeraStore
                 (Reconcile w).world.mariadbStore).obj = some db2 ∧
        dbFinalizer inst.name ∈ db2.finalizersOf)) ∧
    (∀ (w : World) (b : BodyOut), (Reconcile w).out.body = some b →
      b.dispatched = true →
      ∃ inst, w.claim = some inst ∧ ownFinalizer ∈ inst.finalizers) := by
  constructor
  · intro w inst h hdel herr hfin hup hp
    rcases hg : w.galeraStore with g | _ | _ <;> rcases hm : w.mariadbStore with m | _ | _ <;>
      rw [hg, hm] at herr <;> simp only [getDatabaseObject] at herr <;>
      (try exact Option.noConfusion herr)
    · by_cases hcg : dbFinalizer inst.name ∈ g.finalizers <;>
        simp [Reconcile, reconcileBody, getDatabaseObject, h, hg, hm, hdel, hp, hup, hfin, hcg,
          baseOut, addFinalizerList, DbObj.addFinalizerTok, storesAfterUpdate, DbObj.finalizersOf]
    · by_cases hcg : dbFinalizer inst.name ∈ g.finalizers <;>
        simp [Reconcile, reconcileBody, getDatabaseObject, h, hg, hm, hdel, hp, hup, hfin, hcg,
          baseOut, addFinalizerList, DbObj.addFinalizerTok, storesAfterUpdate, DbObj.finalizersOf]
    · by_cases hcg : dbFinalizer inst.name ∈ g.finalizers <;>
        simp [Reconcile, reconcileBody, getDatabaseObject, h, hg, hm, hdel, hp, hup, hfin, hcg,
          baseOut, addFinalizerList, DbObj.addFinalizerTok, storesAfterUpdate, DbObj.finalizersOf]
    · by_cases hcm : dbFinalizer inst.name ∈ m.finalizers <;>
        simp [Reconcile, reconcileBody, getDatabaseObject, h, hg, hm, hdel, hp, hup, hfin, hcm,
          baseOut, addFinalizerList, DbObj.addFinalizerTok, storesAfterUpdate, DbObj.finalizersOf]
  · intro w b hb hdisp
    rcases hc : w.claim with _ | inst
    · rw [Reconcile, hc] at hb; simp at hb
    · refine ⟨inst, rfl, ?_⟩
      by_cases hfin : ownFinalizer ∈ inst.finalizers
      · exact hfin
      · exfalso
        have hb' : b = reconcileBody inst w := by
          by_cases hp : w.patchOk <;> simp [Reconcile, hc, hp] at hb <;> exact hb.symm
        rw [hb', reconcileBody_no_dispatch_without_own inst w hfin] at hdisp
        exact Bool.false_ne_true hdisp

theorem finalizer_commit_precedes_provisioning_witness :
    ownFinalizer ∉ sampleClaim.finalizers ∧
    ((Reconcile worldFresh).out.res = emptyResult ∧ (Reconcile worldFresh).out.err = none ∧
     (reconcileBody sampleClaim worldFresh).addedOwnFinalizer = true ∧
     (reconcileBody sampleClaim worldFresh).checkedReadiness = false ∧
     (reconcileBody sampleClaim worldFresh).ranJob = false ∧
     (reconcileBody sampleClaim worldFresh).dispatched = false ∧
     (reconcileBody sampleClaim worldFresh).instAfter.finalizers =
       sampleClaim.finalizers ++ [ownFinalizer] ∧
     (Reconcile worldFresh).world.claim = some (reconcileBody sampleClaim worldFresh).instAfter ∧
     (∃ db2, (getDatabaseObject (Reconcile worldFresh).world.galeraStore
                (Reconcile worldFresh).world.mariadbStore).obj = some db2 ∧
       dbFinalizer sampleClaim.name ∈ db2.finalizersOf)) :=
  ⟨by decide,
   finalizer_commit_precedes_provisioning.1 worldFresh sampleClaim rfl rfl rfl
     (by decide) rfl rfl⟩

/-- C3: when the job executor runs and reports done without error, the
status hash entry for the DbCreate action is updated to the newly
computed hash exactly when the executor reports changed, and the
completion flag is set to true even when unchanged; when the executor
reports in-flight or an error, neither the hash map nor the completion
flag is modified, so a failed provisioning attempt leaves the claim
incomplete with no new hash recorded. -/
theorem job_outcome_drives_status :
    ∀ (w : World) (inst : MariaDBDatabase),
      w.claim = some inst →
      (Reconcile w).out.body = some (reconcileBody inst w) ∧
      (∀ hsh, (reconcileBody inst w).jobOutcome = some (.done true hsh) →
        (reconcileBody inst w).instAfter.status.completed = true ∧
        (reconcileBody inst w).instAfter.status.hash =
          hashSet inst.status.hash dbCreateHashKey hsh ∧
        hashLookup (reconcileBody inst w).instAfter.status.hash dbCreateHashKey = hsh) ∧
      (∀ hsh, (reconcileBody inst w).jobOutcome = some (.done false hsh) →
        (reconcileBody inst w).instAfter.status.completed = true ∧
        (reconcileBody inst w).instAfter.status.hash = inst.status.hash) ∧
      (∀ d, (reconcileBody inst w).jobOutcome = some (.requeue d) →
        (reconcileBody inst w).instAfter.status = inst.status) ∧
      ((reconcileBody inst w).jobOutcome = some .failed →
        (reconcileBody inst w).instAfter.status = inst.status) := by
  intro w inst h
  have hlink : (Reconcile w).out.body = some (reconcileBody inst w) := by
    by_cases hp : w.patchOk <;> simp [Reconcile, h, hp]
  rcases reconcileBody_shape inst w with ⟨hnone, _, _, _⟩ |
    ⟨inst1, stores, n, s, c, hst, heq⟩
  · exact ⟨hlink,
      fun hsh hjo => absurd hjo (by simp [hnone]),
      fun hsh hjo => absurd hjo (by simp [hnone]),
      fun d hjo => absurd hjo (by simp [hnone]),
      fun hjo => absurd hjo (by simp [hnone])⟩
  · obtain ⟨s1, s2, s3, s4⟩ := runJobStep_spec inst1 stores w n s c
    refine ⟨hlink, ?_, ?_, ?_, ?_⟩
    · intro hsh hjo
      rw [heq] at hjo ⊢
      obtain ⟨ha, _, _⟩ := s1 hsh hjo
      rw [ha, hst]
      exact ⟨rfl, rfl, hashLookup_hashSet _ _ _⟩
    · intro hsh hjo
      rw [heq] at hjo ⊢
      obtain ⟨ha, _, _⟩ := s2 hsh hjo
      rw [ha, hst]
      exact ⟨rfl, rfl⟩
    · intro d hjo
      rw [heq] at hjo ⊢
      obtain ⟨ha, _, _⟩ := s3 d hjo
      rw [ha, hst]
    · intro hjo
      rw [heq] at hjo ⊢
      obtain ⟨ha, _, _⟩ := s4 hjo
      rw [ha, hst]

theorem job_outcome_drives_status_witness :
    worldJobDone.claim = some sampleClaimFin ∧
    (reconcileBody sampleClaimFin worldJobDone).jobOutcome =
      some (.done true (payloadHash ⟨"db1", "g1", "sec", "img"⟩)) ∧
    ((reconcileBody sampleClaimFin worldJobDone).instAfter.status.completed = true ∧
     (reconcileBody sampleClaimFin worldJobDone).instAfter.status.hash =
       hashSet sampleClaimFin.status.hash dbCreateHashKey
         (payloadHash ⟨"db1", "g1", "sec", "img"⟩) ∧
     hashLookup (reconcileBody sampleClaimFin worldJobDone).instAfter.status.hash
       dbCreateHashKey = payloadHash ⟨"db1", "g1", "sec", "img"⟩) :=
  ⟨by decide, by decide,
   (job_outcome_drives_status worldJobDone sampleClaimFin (by decide)).2.1
     (payloadHash ⟨"db1", "g1", "sec", "img"⟩) (by decide)⟩

theorem dependency_notfound_requeues_witness :
    worldNoDb.claim = some sampleClaim ∧ sampleClaim.deletionMarked = false ∧
    worldNoDb.patchOk = true ∧
    (getDatabaseObject worldNoDb.galeraStore worldNoDb.mariadbStore).err = some .notFound ∧
    ((Reconcile worldNoDb).out.res = requeue10 ∧ (Reconcile worldNoDb).out.err = none ∧
     (Reconcile worldNoDb).world.galeraStore = worldNoDb.galeraStore ∧
     (Reconcile worldNoDb).world.mariadbStore = worldNoDb.mariadbStore ∧
     (Reconcile worldNoDb).world.claim = some sampleClaim) :=
  ⟨by decide, by decide, by decide, by decide,
   (dependency_notfound_requeues worldNoDb sampleClaim (by decide) (by decide) (by decide)).1
     (by decide)⟩

/-- C2: when the claim is marked for deletion the invocation runs no
provisioning step; with the backing store resolved, the per-claim token
removal is persisted via update before the claim's own finalizer is
removed (an update failure returns the update error with the claim,
including its own finalizer, untouched); with the backing store
unresolved the claim's own finalizer is removed directly; the
invocation returns an empty successful result unless the backing-store
update fails.  The deferred status patch is assumed to succeed. -/
theorem deletion_detaches_then_releases :
    ∀ (w : World) (inst : MariaDBDatabase),
      w.claim = some inst → inst.deletionMarked = true → w.patchOk = true →
      (reconcileBody inst w).ranJob = false ∧
      (reconcileBody inst w).dispatched = false ∧
      (∀ db, (getDatabaseObject w.galeraStore w.mariadbStore).obj = some db →
        ((db.removeFinalizerTok (dbFinalizer inst.name)).1 = true → w.updateOk = false →
          (Reconcile w).out.res = emptyResult ∧
          (Reconcile w).out.err = some .updateErr ∧
          (Reconcile w).world.claim = some inst ∧
          (Reconcile w).world.galeraStore = w.galeraStore ∧
          (Reconcile w).world.mariadbStore = w.mariadbStore) ∧
        (((db.removeFinalizerTok (dbFinalizer inst.name)).1 = false ∨ w.updateOk = true) →
          (Reconcile w).out.res = emptyResult ∧ (Reconcile w).out.err = none ∧
          (Reconcile w).world.claim =
            some { inst with finalizers := (removeFinalizerList inst.finalizers ownFinalizer).2 } ∧
          (∃ db2, (getDatabaseObject (Reconcile w).world.galeraStore
                     (Reconcile w).world.mariadbStore).obj = some db2 ∧
            dbFinalizer inst.name ∉ db2.finalizersOf))) ∧
      ((getDatabaseObject w.galeraStore w.mariadbStore).err ≠ none →
        (Reconcile w).out.res = emptyResult ∧ (Reconcile w).out.err = none ∧
        (Reconcile w).world.claim =
          some { inst with finalizers := (removeFinalizerList inst.finalizers ownFinalizer).2 } ∧
        (Reconcile w).world.galeraStore = w.galeraStore ∧
        (Reconcile w).world.mariadbStore = w.mariadbStore) := by
  intro w inst h hdel hp
  refine ⟨?_, ?_, ?_, ?_⟩
  · rcases hg : w.galeraStore with g | _ | _ <;> rcases hm : w.mariadbStore with m | _ | _ <;>
      simp only [reconcileBody, getDatabaseObject, hg, hm, hdel, if_true] <;>
      (try split_ifs) <;> simp [baseOut]
  · rcases hg : w.galeraStore with g | _ | _ <;> rcases hm : w.mariadbStore with m | _ | _ <;>
      simp only [reconcileBody, getDatabaseObject, hg, hm, hdel, if_true] <;>
      (try split_ifs) <;> simp [baseOut]
  · intro db hdb
    rcases hg : w.galeraStore with g | _ | _ <;> rcases hm : w.mariadbStore with m | _ | _ <;>
      rw [hg, hm] at hdb <;> simp only [getDatabaseObject, Option.some.injEq] at hdb <;>
      (try exact Option.noConfusion hdb) <;> rw [← hdb]
    · refine ⟨fun hrem hupf => ?_, fun hcase => ?_⟩
      · simp [Reconcile, reconcileBody, getDatabaseObject, h, hg, hm, hdel, hp, hrem, hupf, baseOut]
      · by_cases hmem : dbFinalizer inst.name ∈ g.finalizers
        · rcases hcase with hremf | hup
          · exfalso; simp [DbObj.removeFinalizerTok, removeFinalizerList, hmem] at hremf
          · simp [Reconcile, reconcileBody, getDatabaseObject, h, hg, hm, hdel, hp, hup, hmem,
              baseOut, DbObj.removeFinalizerTok, removeFinalizerList, storesAfterUpdate,
              DbObj.finalizersOf]
        · simp [Reconcile, reconcileBody, getDatabaseObject, h, hg, hm, hdel, hp, hmem,
            baseOut, DbObj.removeFinalizerTok, removeFinalizerList, DbObj.finalizersOf]
    · refine ⟨fun hrem hupf => ?_, fun hcase => ?_⟩
      · simp [Reconcile, reconcileBody, getDatabaseObject, h, hg, hm, hdel, hp, hrem, hupf, baseOut]
      · by_cases hmem : dbFinalizer inst.name ∈ g.finalizers
        · rcases hcase with hremf | hup
          · exfalso; simp [DbObj.removeFinalizerTok, removeFinalizerList, hmem] at hremf
          · simp [Reconcile, reconcileBody, getDatabaseObject, h, hg, hm, hdel, hp, hup, hmem,
              baseOut, DbObj.removeFinalizerTok, removeFinalizerList, storesAfterUpdate,
              DbObj.finalizersOf]
        · simp [Reconcile, reconcileBody, getDatabaseObject, h, hg, hm, hdel, hp, hmem,
            baseOut, DbObj.removeFinalizerTok, removeFinalizerList, DbObj.finalizersOf]
    · refine ⟨fun hrem hupf => ?_, fun hcase => ?_⟩
      · simp [Reconcile, reconcileBody, getDatabaseObject, h, hg, hm, hdel, hp, hrem, hupf, baseOut]
      · by_cases hmem : dbFinalizer inst.name ∈ g.finalizers
        · rcases hcase with hremf | hup
          · exfalso; simp [DbObj.removeFinalizerTok, removeFinalizerList, hmem] at hremf
          · simp [Reconcile, reconcileBody, getDatabaseObject, h, hg, hm, hdel, hp, hup, hmem,
              baseOut, DbObj.removeFinalizerTok, removeFinalizerList, storesAfterUpdate,
              DbObj.finalizersOf]
        · simp [Reconcile, reconcileBody, getDatabaseObject, h, hg, hm, hdel, hp, hmem,
            baseOut, DbObj.removeFinalizerTok, removeFinalizerList, DbObj.finalizersOf]
    · refine ⟨fun hrem hupf => ?_, fun hcase => ?_⟩
      · simp [Reconcile, reconcileBody, getDatabaseObject, h, hg, hm, hdel, hp, hrem, hupf, baseOut]
      · by_cases hmem : dbFinalizer inst.name ∈ m.finalizers
        · rcases hcase with hremf | hup
          · exfalso; simp [DbObj.removeFinalizerTok, removeFinalizerList, hmem] at hremf
          · simp [Reconcile, reconcileBody, getDatabaseObject, h, hg, hm, hdel, hp, hup, hmem,
              baseOut, DbObj.removeFinalizerTok, removeFinalizerList, storesAfterUpdate,
              DbObj.finalizersOf]
        · simp [Reconcile, reconcileBody, getDatabaseObject, h, hg, hm, hdel, hp, hmem,
            baseOut, DbObj.removeFinalizerTok, removeFinalizerList, DbObj.finalizersOf]
  · intro herr
    rcases hg : w.galeraStore with g | _ | _ <;> rcases hm : w.mariadbStore with m | _ | _ <;>
      rw [hg, hm] at herr <;> simp only [getDatabaseObject] at herr <;>
      (try exact absurd rfl herr) <;>
      simp [Reconcile, reconcileBody, getDatabaseObject, h, hg, hm, hdel, hp, baseOut]


theorem deletion_detaches_then_releases_witness :
    worldDeleting.claim = some sampleClaimDel ∧ sampleClaimDel.deletionMarked = true ∧
    (getDatabaseObject worldDeleting.galeraStore worldDeleting.mariadbStore).obj =
      some (.galera sampleGaleraTok) ∧
    ((Reconcile worldDeleting).out.res = emptyResult ∧
     (Reconcile worldDeleting).out.err = none ∧
     (Reconcile worldDeleting).world.claim =
       some { sampleClaimDel with
                finalizers := (removeFinalizerList sampleClaimDel.finalizers ownFinalizer).2 } ∧
     (∃ db2, (getDatabaseObject (Reconcile worldDeleting).world.galeraStore
                (Reconcile worldDeleting).world.mariadbStore).obj = some db2 ∧
       dbFinalizer sampleClaimDel.name ∉ db2.finalizersOf)) :=
  ⟨rfl, rfl, rfl,
   ((deletion_detaches_then_releases worldDeleting sampleClaimDel rfl rfl rfl).2.2.1
       (.galera sampleGaleraTok) rfl).2 (Or.inr rfl)⟩

/-- C7 counterexample: a world on the active path with the backing
store resolved (Clustered, bootstrapped=false) and all store calls
succeeding, on which Reconcile returns the empty successful result of
the finalizer early-return instead of the claimed 10-second requeue:
the claim's own finalizer was not yet present. -/
theorem notready_requeue_counterexample :
    sampleClaim.deletionMarked = false ∧
    worldFresh.claim = some sampleClaim ∧
    (getDatabaseObject worldFresh.galeraStore worldFresh.mariadbStore).dbGalera =
      some sampleGalera ∧
    sampleGalera.bootstrapped = false ∧
    worldFresh.updateOk = true ∧ worldFresh.patchOk = true ∧
    (Reconcile worldFresh).out.res = emptyResult ∧
    (Reconcile worldFresh).out.err = none ∧
    (Reconcile worldFresh).out.res ≠ requeue10 := by decide

/-- C7 (amended): on the active path where the backing store resolved
but is not ready (Clustered with bootstrapped=false, or Standalone with
an empty initialization hash), and provided the claim's own finalizer
is already present at entry (otherwise the attachment early-return of
line 150 yields an empty successful result instead) and the store
calls succeed, Reconcile returns a requeue-after of 10 seconds with no
error, with the backing-store finalizer attached, and without running
or dispatching a provisioning action. -/
theorem notready_requeues_after_attach :
    ∀ (w : World) (inst : MariaDBDatabase),
      w.claim = some inst → inst.deletionMarked = false →
      ownFinalizer ∈ inst.finalizers →
      w.updateOk = true → w.patchOk = true →
      (∀ g, (getDatabaseObject w.galeraStore w.mariadbStore).dbGalera = some g →
        g.bootstrapped = false →
        (Reconcile w).out.res = requeue10 ∧ (Reconcile w).out.err = none ∧
        (reconcileBody inst w).ranJob = false ∧
        (reconcileBody inst w).dispatched = false ∧
        (Reconcile w).world.claim = some inst ∧
        (∃ db2, (getDatabaseObject (Reconcile w).world.galeraStore
                   (Reconcile w).world.mariadbStore).obj = some db2 ∧
          dbFinalizer inst.name ∈ db2.finalizersOf)) ∧
      (∀ m, (getDatabaseObject w.galeraStore w.mariadbStore).dbMariadb = some m →
        m.dbInitHash = "" →
        (Reconcile w).out.res = requeue10 ∧ (Reconcile w).out.err = none ∧
        (reconcileBody inst w).ranJob = false ∧
        (reconcileBody inst w).dispatched = false ∧
        (Reconcile w).world.claim = some inst ∧
        (∃ db2, (getDatabaseObject (Reconcile w).world.galeraStore
                   (Reconcile w).world.mariadbStore).obj = some db2 ∧
          dbFinalizer inst.name ∈ db2.finalizersOf)) := by
  intro w inst h hdel hfin hup hp
  obtain ⟨nm, lbl, dm, fins, st⟩ := inst
  replace hdel : dm = false := hdel
  subst hdel
  constructor
  · intro g hdbg hboot
    rcases hg : w.galeraStore with g0 | _ | _ <;> rcases hm : w.mariadbStore with m0 | _ | _ <;>
      rw [hg, hm] at hdbg <;> simp only [getDatabaseObject, Option.some.injEq] at hdbg <;>
      (try exact Option.noConfusion hdbg)
    all_goals subst hdbg
    all_goals by_cases hmem : dbFinalizer nm ∈ g0.finalizers <;>
      simp [Reconcile, reconcileBody, getDatabaseObject, h, hg, hm, hp, hup, hfin, hmem,
        hboot, baseOut, addFinalizerList, DbObj.addFinalizerTok, storesAfterUpdate,
        DbObj.finalizersOf]
  · intro m hdbm hinit
    rcases hg : w.galeraStore with g0 | _ | _ <;> rcases hm : w.mariadbStore with m0 | _ | _ <;>
      rw [hg, hm] at hdbm <;> simp only [getDatabaseObject, Option.some.injEq] at hdbm <;>
      (try exact Option.noConfusion hdbm)
    all_goals subst hdbm
    all_goals by_cases hmem : dbFinalizer nm ∈ m0.finalizers <;>
      simp [Reconcile, reconcileBody, getDatabaseObject, h, hg, hm, hp, hup, hfin, hmem,
        hinit, baseOut, addFinalizerList, DbObj.addFinalizerTok, storesAfterUpdate,
        DbObj.finalizersOf]


theorem notready_requeues_after_attach_witness :
    worldUnready.claim = some sampleClaimFin ∧
    ownFinalizer ∈ sampleClaimFin.finalizers ∧
    (getDatabaseObject worldUnready.galeraStore worldUnready.mariadbStore).dbGalera =
      some sampleGaleraTok ∧
    sampleGaleraTok.bootstrapped = false ∧
    ((Reconcile worldUnready).out.res = requeue10 ∧ (Reconcile worldUnready).out.err = none ∧
     (reconcileBody sampleClaimFin worldUnready).ranJob = false ∧
     (reconcileBody sampleClaimFin worldUnready).dispatched = false ∧
     (Reconcile worldUnready).world.claim = some sampleClaimFin ∧
     (∃ db2, (getDatabaseObject (Reconcile worldUnready).world.galeraStore
                (Reconcile worldUnready).world.mariadbStore).obj = some db2 ∧
       dbFinalizer sampleClaimFin.name ∈ db2.finalizersOf)) :=
  ⟨rfl, by decide, rfl, rfl,
   (notready_requeues_after_attach worldUnready sampleClaimFin rfl rfl (by decide)
       rfl rfl).1 sampleGaleraTok rfl rfl⟩

/-- C8 counterexample: a world (fresh active claim, ready backing
store, all store calls succeeding) on which the first Reconcile
invocation newly adds the claim's own finalizer and returns the empty
successful result without dispatching, while the second invocation,
run on the state the first left behind with no external change,
returns a 5-second requeue and dispatches a provisioning action. -/
theorem reconcile_idempotence_counterexample :
    (Reconcile worldReadyFresh).out.err = none ∧
    (Reconcile (Reconcile worldReadyFresh).world).out.err = none ∧
    (Reconcile worldReadyFresh).out.res = emptyResult ∧
    (Reconcile worldReadyFresh).out.odispatched = false ∧
    (Reconcile (Reconcile worldReadyFresh).world).out.res = ⟨5⟩ ∧
    (Reconcile (Reconcile worldReadyFresh).world).out.odispatched = true ∧
    (Reconcile (Reconcile worldReadyFresh).world).out.res ≠
      (Reconcile worldReadyFresh).out.res := by
  decide

set_option maxHeartbeats 2000000 in
/-- C8 (amended): invoking Reconcile twice in immediate succession with
no external change in between yields the same result and the same
error from both calls, and dispatches no provisioning action on the
second call, provided the first invocation did not newly add the
claim's own finalizer (when it did, the first call's
empty-successful-result early return differs from the second call's
outcome, as the counterexample shows). -/
theorem reconcile_second_run_stable :
    ∀ (w : World),
      (Reconcile w).out.oaddedOwnFinalizer = false →
      (Reconcile (Reconcile w).world).out.res = (Reconcile w).out.res ∧
      (Reconcile (Reconcile w).world).out.err = (Reconcile w).out.err ∧
      (Reconcile (Reconcile w).world).out.odispatched = false := by
  intro w hadd
  rcases w with ⟨oc, gs, ms, js, uok, pok⟩
  rcases oc with _ | inst
  · simp [Reconcile, ReconcileOut.odispatched]
  obtain ⟨nm, lbl, dm, fins, st⟩ := inst
  cases dm with
  | true =>
    cases gs with
    | found g =>
      by_cases hmem : dbFinalizer nm ∈ g.finalizers
      · cases uok <;> cases pok <;>
          simp [Reconcile, reconcileBody, getDatabaseObject, baseOut, removeFinalizerList,
            DbObj.removeFinalizerTok, storesAfterUpdate, ReconcileOut.odispatched, hmem]
      · cases pok <;>
          simp [Reconcile, reconcileBody, getDatabaseObject, baseOut, removeFinalizerList,
            DbObj.removeFinalizerTok, storesAfterUpdate, ReconcileOut.odispatched, hmem]
    | notFound =>
      cases ms with
      | found m =>
        by_cases hmem : dbFinalizer nm ∈ m.finalizers
        · cases uok <;> cases pok <;>
            simp [Reconcile, reconcileBody, getDatabaseObject, baseOut, removeFinalizerList,
              DbObj.removeFinalizerTok, storesAfterUpdate, ReconcileOut.odispatched, hmem]
        · cases pok <;>
            simp [Reconcile, reconcileBody, getDatabaseObject, baseOut, removeFinalizerList,
              DbObj.removeFinalizerTok, storesAfterUpdate, ReconcileOut.odispatched, hmem]
      | notFound =>
        cases pok <;>
          simp [Reconcile, reconcileBody, getDatabaseObject, baseOut, removeFinalizerList,
            ReconcileOut.odispatched]
      | storeError =>
        cases pok <;>
          simp [Reconcile, reconcileBody, getDatabaseObject, baseOut, removeFinalizerList,
            ReconcileOut.odispatched]
    | storeError =>
      cases pok <;>
        simp [Reconcile, reconcileBody, getDatabaseObject, baseOut, removeFinalizerList,
          ReconcileOut.odispatched]
  | false =>
    cases gs with
    | found g =>
      cases pok <;> cases uok <;>
        by_cases hmem : dbFinalizer nm ∈ g.finalizers <;>
        by_cases hfin : ownFinalizer ∈ fins <;>
        first
          | (simp [Reconcile, reconcileBody, getDatabaseObject, runJobStep, doJob, baseOut,
              addFinalizerList, removeFinalizerList, DbObj.addFinalizerTok,
              DbObj.removeFinalizerTok, storesAfterUpdate, DbObj.finalizersOf,
              ReconcileOut.odispatched, ReconcileOut.oaddedOwnFinalizer, hashLookup_hashSet,
              beq_iff_eq, hmem, hfin]; done)
          | (by_cases hb : g.bootstrapped <;>
             by_cases hhash : payloadHash ⟨nm, g.name, g.secret, g.containerImage⟩ =
               hashLookup st.hash dbCreateHashKey <;>
             rcases js with _ | (_ | _ | _) <;>
             (simp [Reconcile, reconcileBody, getDatabaseObject, runJobStep, doJob, baseOut,
               addFinalizerList, removeFinalizerList, DbObj.addFinalizerTok,
               DbObj.removeFinalizerTok, storesAfterUpdate, DbObj.finalizersOf,
               ReconcileOut.odispatched, ReconcileOut.oaddedOwnFinalizer, hashLookup_hashSet,
               beq_iff_eq, hmem, hfin, hb, hhash]; done))
          | (exfalso;
             simp [Reconcile, reconcileBody, getDatabaseObject, baseOut, addFinalizerList,
               DbObj.addFinalizerTok, storesAfterUpdate, ReconcileOut.oaddedOwnFinalizer,
               hmem, hfin] at hadd)
    | notFound =>
      cases ms with
      | found m =>
        cases pok <;> cases uok <;>
          by_cases hmem : dbFinalizer nm ∈ m.finalizers <;>
          by_cases hfin : ownFinalizer ∈ fins <;>
          first
            | (simp [Reconcile, reconcileBody, getDatabaseObject, runJobStep, doJob, baseOut,
                addFinalizerList, removeFinalizerList, DbObj.addFinalizerTok,
                DbObj.removeFinalizerTok, storesAfterUpdate, DbObj.finalizersOf,
                ReconcileOut.odispatched, ReconcileOut.oaddedOwnFinalizer, hashLookup_hashSet,
                beq_iff_eq, hmem, hfin]; done)
            | (by_cases hinit : m.dbInitHash = "" <;>
               by_cases hhash : payloadHash ⟨nm, m.name, m.secret, m.containerImage⟩ =
                 hashLookup st.hash dbCreateHashKey <;>
               rcases js with _ | (_ | _ | _) <;>
               (simp [Reconcile, reconcileBody, getDatabaseObject, runJobStep, doJob, baseOut,
                 addFinalizerList, removeFinalizerList, DbObj.addFinalizerTok,
                 DbObj.removeFinalizerTok, storesAfterUpdate, DbObj.finalizersOf,
                 ReconcileOut.odispatched, ReconcileOut.oaddedOwnFinalizer, hashLookup_hashSet,
                 beq_iff_eq, hmem, hfin, hinit, hhash]; done))
            | (exfalso;
               simp [Reconcile, reconcileBody, getDatabaseObject, baseOut, addFinalizerList,
                 DbObj.addFinalizerTok, storesAfterUpdate, ReconcileOut.oaddedOwnFinalizer,
                 hmem, hfin] at hadd)
      | notFound =>
        cases pok <;>
          simp [Reconcile, reconcileBody, getDatabaseObject, baseOut,
            ReconcileOut.odispatched]
      | storeError =>
        cases pok <;>
          simp [Reconcile, reconcileBody, getDatabaseObject, baseOut,
            ReconcileOut.odispatched]
    | storeError =>
      cases pok <;>
        simp [Reconcile, reconcileBody, getDatabaseObject, baseOut,
          ReconcileOut.odispatched]


theorem reconcile_second_run_stable_witness :
    (Reconcile worldUnready).out.oaddedOwnFinalizer = false ∧
    ((Reconcile (Reconcile worldUnready).world).out.res = (Reconcile worldUnready).out.res ∧
     (Reconcile (Reconcile worldUnready).world).out.err = (Reconcile worldUnready).out.err ∧
     (Reconcile (Reconcile worldUnready).world).out.odispatched = false) :=
  ⟨by decide, reconcile_second_run_stable worldUnready (by decide)⟩

end MariaDBOp
